import Mathlib

/-!
Verification of `utils_nlp/common/pytorch_utils.py` and
`utils_nlp/models/bert/extract_features.py` (repository `unhoang/nlp-recipes`)
against its natural-language specification.

The Python modules are shallowly embedded: each Python function becomes a
Lean function over explicit data, Python exceptions become `Except PyError`
(raising is returning `.error`, and a raised exception propagates through
the rest of a body, written as explicit `match`es on intermediate results),
and the ambient CUDA state (the device count) is an explicit argument.
-/

-- Results of embedded Python code are compared for equality in concrete
-- evaluations, so `Except` needs decidable equality.
deriving instance DecidableEq for Except

/-- Python exceptions raised (or raisable) by the embedded code. -/
inductive PyError where
  | nameError (missing : String)
  | typeError (msg : String)
  | valueError (msg : String)
  | zeroDivisionError (msg : String)
  | indexError (msg : String)
  | runtimeError (msg : String)
  | exception (msg : String)
deriving DecidableEq, Repr

/-- A Python value that may be passed where an integer is expected:
`get_hidden_states` passes the strings "cpu" / "gpu" as `get_device`'s
`num_gpus` argument, so the embedding of that argument admits strings. -/
inductive PyVal where
  | pyInt (n : Int)
  | pyStr (s : String)
deriving DecidableEq, Repr

/-- A `torch.device`: a type string ("cpu" or "cuda") and an optional index. -/
structure Device where
  type : String
  index : Option Int
deriving DecidableEq, Repr

/-- Python `min(v, c)` where `v` may be an int or a string and `c` is an int.
Comparing a str with an int raises `TypeError` in Python 3. -/
def pymin (v : PyVal) (c : Int) : Except PyError Int :=
  match v with
  | .pyInt n => .ok (min n c)
  | .pyStr _ => .error (.typeError "lt not supported between instances of int and str")

/-- Embedding of `get_device(num_gpus=None, local_rank=-1)`.
`cudaCount` models `torch.cuda.device_count()`; `torch.cuda.is_available()`
is modelled as `0 < cudaCount`. Returns the pair `(device, num_gpus)`. -/
def get_device (num_gpus : Option PyVal) (local_rank : Int) (cudaCount : Nat) :
    Except PyError (Device × Int) :=
  if local_rank = -1 then
    match num_gpus with
    | some v =>
        match pymin v (cudaCount : Int) with
        | .error e => .error e
        | .ok n =>
            .ok (if 0 < cudaCount ∧ 0 < n then ⟨"cuda", none⟩ else ⟨"cpu", none⟩, n)
    | none =>
        let n : Int := (cudaCount : Int)
        .ok (if 0 < cudaCount ∧ 0 < n then ⟨"cuda", none⟩ else ⟨"cpu", none⟩, n)
  else
    -- torch.cuda.set_device(local_rank) requires a CUDA device to exist
    if cudaCount = 0 then
      .error (.runtimeError "CUDA unavailable")
    else
      .ok (⟨"cuda", some local_rank⟩, 1)

/-- A PyTorch model: a bare module (with the device its parameters live on),
or a module wrapped in `torch.nn.DataParallel` /
`torch.nn.parallel.DistributedDataParallel`. -/
inductive PyModel where
  | base (id : Nat) (dev : Device)
  | dataParallel (inner : PyModel) (device_ids : List Int)
  | distributedDataParallel (inner : PyModel) (device_ids : List Int) (output_device : Int)
deriving DecidableEq, Repr

/-- Embedding of `model.to(device)`: moves the parameters of the module (and
of any wrapped module) onto `device`. -/
def modelTo (m : PyModel) (d : Device) : PyModel :=
  match m with
  | .base i _ => .base i d
  | .dataParallel inner ids => .dataParallel (modelTo inner d) ids
  | .distributedDataParallel inner ids od => .distributedDataParallel (modelTo inner d) ids od

/-- Python `list(range(n))` as a list of ints. -/
def intRange (n : Int) : List Int :=
  (List.range n.toNat).map Int.ofNat

/-- The `if num_gpus is not None: if num_gpus < 1: raise ValueError(...)`
guard of `move_model_to_device`. -/
def check_num_gpus (num_gpus : Option Int) : Except PyError Unit :=
  match num_gpus with
  | some n =>
      if n < 1 then .error (.valueError "num_gpus must be at least 1 or None") else .ok ()
  | none => .ok ()

/-- Embedding of `move_model_to_device(model, device, num_gpus=None,
gpu_ids=None, local_rank=-1)`. The `device` argument is a genuine
`torch.device` (the `isinstance` guard passes). `cudaCount` models
`torch.cuda.device_count()`.

Notes kept from the source:
* the unwrap step tests `isinstance(model, torch.nn.DataParallel)` only, so
  only a `DataParallel` wrapper is removed;
* in the `local_rank != -1` branch the source assigns to `self.model`, but
  `self` is not defined in this module-level function, so evaluating the
  right-hand side `self.model` raises `NameError`;
* the `num_gpus < 1` and CUDA-availability guards sit inside the
  `device.type == "cuda"` branch. -/
def move_model_to_device (model : PyModel) (device : Device) (num_gpus : Option Int)
    (gpu_ids : Option (List Int)) (local_rank : Int) (cudaCount : Nat) :
    Except PyError PyModel :=
  -- unwrap model (a DataParallel wrapper only)
  let model :=
    match model with
    | .dataParallel inner _ => inner
    | m => m
  -- wrap in DataParallel or DistributedDataParallel
  if local_rank ≠ -1 then
    .error (.nameError "self")
  else if device.type = "cuda" then
    match check_num_gpus num_gpus with
    | .error e => .error e
    | .ok _ =>
        let num_cuda_devices : Int := (cudaCount : Int)
        if num_cuda_devices < 1 then
          .error (.exception "CUDA devices are not available.")
        else
          let gids : List Int :=
            match gpu_ids with
            | some g => g
            | none =>
                intRange
                  (match num_gpus with
                   | none => num_cuda_devices
                   | some n => min n num_cuda_devices)
          let model := if gids.length > 1 then PyModel.dataParallel model gids else model
          -- move to device
          .ok (modelTo model device)
  else
    .ok (modelTo model device)

/-- The sampler chosen by `dataloader_from_dataset`. -/
inductive SamplerKind where
  | distributedSampler
  | randomSampler
  | sequentialSampler
deriving DecidableEq, Repr

/-- A `DataLoader` as produced by `dataloader_from_dataset`: the dataset
size, the chosen sampler and the (effective) batch size. -/
structure PyDataLoader where
  dsSize : Nat
  sampler : SamplerKind
  batch_size : Int
deriving DecidableEq, Repr

/-- Embedding of `dataloader_from_dataset(ds, batch_size=32, num_gpus=None,
shuffle=False, distributed=False)`. `cudaCount` models
`torch.cuda.device_count()` (the default when `num_gpus` is `None`). -/
def dataloader_from_dataset (dsSize : Nat) (batch_size : Int) (num_gpus : Option Int)
    (shuffle : Bool) (distributed : Bool) (cudaCount : Nat) : PyDataLoader :=
  let num_gpus : Int :=
    match num_gpus with
    | none => (cudaCount : Int)
    | some n => n
  let batch_size := batch_size * max 1 num_gpus
  let sampler :=
    if distributed then SamplerKind.distributedSampler
    else if shuffle then SamplerKind.randomSampler
    else SamplerKind.sequentialSampler
  ⟨dsSize, sampler, batch_size⟩

/-- Embedding of `compute_training_steps(dataloader, num_epochs=1,
max_steps=-1, gradient_accumulation_steps=1)`. The `try: len(dataloader)
except: -1` is modelled by an `Option Nat` argument: `none` when the length
is undeterminable. Python `//` is floor division (`Int.fdiv`); dividing by
zero raises `ZeroDivisionError`. The nested source conditionals
(`if max_steps <= 0: if dataset_length != -1 and num_epochs > 0: ...`,
leaving `max_steps` unchanged when not both hold) are written as one
conjunction. -/
def compute_training_steps (dataloaderLength : Option Nat) (num_epochs : Int)
    (max_steps : Int) (gradient_accumulation_steps : Int) : Except PyError Int :=
  let dataset_length : Int :=
    match dataloaderLength with
    | some l => (l : Int)
    | none => -1
  let step1 : Except PyError Int :=
    if max_steps ≤ 0 ∧ dataset_length ≠ -1 ∧ 0 < num_epochs then
      if gradient_accumulation_steps = 0 then
        .error (.zeroDivisionError "integer division or modulo by zero")
      else
        .ok (Int.fdiv dataset_length gradient_accumulation_steps * num_epochs)
    else
      .ok max_steps
  match step1 with
  | .error e => .error e
  | .ok ms =>
      if ms ≤ 0 then .error (.exception "Max steps cannot be determined.") else .ok ms

/-!
Embedding of `utils_nlp/models/bert/extract_features.py`
(class `BERTSentenceEncoder`).
-/

/-- One row of the hidden-states DataFrame returned by `get_hidden_states`:
columns text_index (int), token (str), layer_index (int), values
(list of floats, embedded as rationals). -/
structure HSRecord where
  text_index : Int
  token : String
  layer_index : Int
  values : List ℚ
deriving DecidableEq, Repr

/-- One row of the DataFrame returned by `pool` (after `reset_index`):
text_index, layer_index, and the pooled vector. -/
structure PoolRow where
  text_index : Int
  layer_index : Int
  values : List ℚ
deriving DecidableEq, Repr

/-- Sequential effectful map over a list, modelling Python iteration in which
the first raised exception propagates. -/
def mapExcept (f : α → Except PyError β) : List α → Except PyError (List β)
  | [] => .ok []
  | x :: t =>
      match f x with
      | .error e => .error e
      | .ok y =>
          match mapExcept f t with
          | .error e => .error e
          | .ok ys => .ok (y :: ys)

/-- Embedding of `np.reshape(np.array(v), 768)` on a single row vector:
succeeds iff the vector has exactly 768 entries. -/
def np_reshape_768 (v : List ℚ) : Except PyError (List ℚ) :=
  if v.length = 768 then .ok v else .error (.valueError "cannot reshape array into shape 768")

/-- The `values = np.array([np.reshape(np.array(x.values[i]), 768) for i in
range(x.values.shape[0])])` step shared by the three pooling closures. -/
def stack_values (vs : List (List ℚ)) : Except PyError (List (List ℚ)) :=
  mapExcept np_reshape_768 vs

/-- Element-wise sum of two row vectors (torch addition on stacked rows). -/
def vecAdd (a b : List ℚ) : List ℚ := List.zipWith (· + ·) a b

/-- Element-wise maximum of two row vectors. -/
def vecMax (a b : List ℚ) : List ℚ := List.zipWith max a b

/-- Embedding of the closure `max_pool(x)`: stack the group's vectors and
take `torch.max(..., 0)`, the element-wise maximum over rows.
`torch.max` raises on an empty reduction dimension. -/
def max_pool (vs : List (List ℚ)) : Except PyError (List ℚ) :=
  match stack_values vs with
  | .error e => .error e
  | .ok [] => .error (.runtimeError "max(): Expected reduction dim 0 to have non-zero size.")
  | .ok (v :: rest) => .ok (rest.foldl vecMax v)

/-- Embedding of the closure `mean_pool(x)`: stack the group's vectors and
take `torch.mean(..., 0)`, the element-wise sum over rows divided by the
number of rows. `torch.mean` over an empty dimension yields no number (NaN);
that branch is modelled as an error and is unreachable for the nonempty
groups produced by `groupby`. -/
def mean_pool (vs : List (List ℚ)) : Except PyError (List ℚ) :=
  match stack_values vs with
  | .error e => .error e
  | .ok [] => .error (.runtimeError "mean(): reduction over an empty dim")
  | .ok (v :: rest) =>
      .ok ((rest.foldl vecAdd v).map (fun x => x / ((v :: rest).length : ℚ)))

/-- Embedding of the closure `cls_pool(x)`: stack the group's vectors and
return `values[0]`, the vector of the group's first row in input order. -/
def cls_pool (vs : List (List ℚ)) : Except PyError (List ℚ) :=
  match stack_values vs with
  | .error e => .error e
  | .ok [] => .error (.indexError "index 0 is out of bounds for axis 0 with size 0")
  | .ok (v :: _) => .ok v

/-- The reduction selected by `pool`'s strategy dispatch. -/
inductive PoolFunc where
  | maxF
  | meanF
  | clsF
deriving DecidableEq, Repr

/-- Apply a selected reduction to a group's vectors. -/
def applyPoolFunc : PoolFunc → List (List ℚ) → Except PyError (List ℚ)
  | .maxF => max_pool
  | .meanF => mean_pool
  | .clsF => cls_pool

/-- Embedding of `pool`'s strategy dispatch (`PoolingStrategy` is a str
enum, so comparisons against the strings "max" / "mean" / "cls" cover both
enum members and raw strings). For any other strategy the source executes
`raise ValuerError(...)`: the name `ValuerError` is undefined, so the raise
itself raises `NameError`; the handler `except ValuerError as ve` then
evaluates the same undefined name while handling that exception, raising a
new `NameError` that propagates to `pool`'s caller. Nothing is printed and
no `pool_func` is set. -/
def choose_pool_func (pooling_strategy : String) : Except PyError PoolFunc :=
  if pooling_strategy = "max" then .ok .maxF
  else if pooling_strategy = "mean" then .ok .meanF
  else if pooling_strategy = "cls" then .ok .clsF
  else .error (.nameError "ValuerError")

/-- The grouping key of a hidden-states row: `(text_index, layer_index)`. -/
def keyOf (r : HSRecord) : Int × Int := (r.text_index, r.layer_index)

/-- Lexicographic order on grouping keys, the order in which pandas
`groupby(sort=True)` lists the groups. -/
def keyLE (a b : Int × Int) : Prop := a.1 < b.1 ∨ (a.1 = b.1 ∧ a.2 ≤ b.2)

instance keyLE.decRel : DecidableRel keyLE := fun a b => by
  unfold keyLE
  exact inferInstance

instance keyLE.isTotal : IsTotal (Int × Int) keyLE where
  total a b := by
    unfold keyLE
    omega

instance keyLE.isTrans : IsTrans (Int × Int) keyLE where
  trans a b c hab hbc := by
    unfold keyLE at hab hbc ⊢
    omega

instance keyLE.isAntisymm : IsAntisymm (Int × Int) keyLE where
  antisymm a b hab hba := by
    unfold keyLE at hab hba
    have h1 : a.1 = b.1 := by omega
    have h2 : a.2 = b.2 := by omega
    exact Prod.ext h1 h2

/-- The distinct grouping keys of a DataFrame, in the sorted order pandas
`groupby` uses. -/
def groupKeys (df : List HSRecord) : List (Int × Int) :=
  ((df.map keyOf).dedup).insertionSort keyLE

/-- The vectors of the rows of one group, in their DataFrame order. -/
def groupRows (df : List HSRecord) (k : Int × Int) : List (List ℚ) :=
  (df.filter (fun r => decide (keyOf r = k))).map (fun r => r.values)

/-- Embedding of `BERTSentenceEncoder.pool(df, pooling_strategy)`:
select the reduction (see `choose_pool_func`), then
`df.groupby(["text_index", "layer_index"])["values"].apply(...)` followed by
`reset_index`: one output row per distinct key, carrying the reduction of
exactly that group's vectors. -/
def pool (df : List HSRecord) (pooling_strategy : String) :
    Except PyError (List PoolRow) :=
  match choose_pool_func pooling_strategy with
  | .error e => .error e
  | .ok f =>
      mapExcept
        (fun k =>
          match applyPoolFunc f (groupRows df k) with
          | .error e => .error e
          | .ok v => .ok (PoolRow.mk k.1 k.2 v))
        (groupKeys df)

/-- Embedding of `BERTSentenceEncoder.get_hidden_states(text, ...)` up to its
first hidden-state record. `self_num_gpus` is the encoder's `num_gpus`
attribute and `cudaCount` models `torch.cuda.device_count()`. The body first
calls `get_device("cpu" if self.num_gpus == 0 else "gpu")`, passing a string
as `get_device`'s `num_gpus` parameter; `get_device` then feeds it to
`min(..., torch.cuda.device_count())`, which raises `TypeError`. Were that
call ever to return, the next statement calls `move_to_device`, a name the
module imports from `utils_nlp.common.pytorch_utils` even though that module
only defines `move_model_to_device`, so the name is unbound. Either way no
record is appended. -/
def get_hidden_states (self_num_gpus : Option Int) (cudaCount : Nat) :
    Except PyError (List HSRecord) :=
  match get_device
      (some (.pyStr (if self_num_gpus = some 0 then "cpu" else "gpu"))) (-1) cudaCount with
  | .error e => .error e
  | .ok _ => .error (.nameError "move_to_device")

/-- Embedding of `BERTSentenceEncoder.encode(text, ...)`:
`get_hidden_states` followed by `pool`. -/
def encode (self_num_gpus : Option Int) (cudaCount : Nat)
    (pooling_strategy : String) : Except PyError (List PoolRow) :=
  match get_hidden_states self_num_gpus cudaCount with
  | .error e => .error e
  | .ok df => pool df pooling_strategy

/-!
Claims C1 through C5 and C7 through C10.
-/

/-- C1 (counterexample): calling `pool` with the unknown strategy "median"
raises to the caller (a `NameError` caused by the misspelled exception name
`ValuerError`) instead of swallowing the error, printing it, and proceeding
to the grouping step. -/
theorem claim_C1_counterexample :
    pool ([] : List HSRecord) "median" = Except.error (PyError.nameError "ValuerError") := by
  rfl

/-- C1 (amended): for every DataFrame and every pooling strategy outside
max / mean / cls, `pool` raises a `NameError` (from evaluating the
misspelled exception name `ValuerError`) to its caller; the grouping step is
never reached and nothing is printed. -/
theorem claim_C1_unknown_strategy_raises (df : List HSRecord) (s : String)
    (h1 : s ≠ "max") (h2 : s ≠ "mean") (h3 : s ≠ "cls") :
    pool df s = Except.error (PyError.nameError "ValuerError") := by
  unfold pool choose_pool_func
  rw [if_neg h1, if_neg h2, if_neg h3]

/-- C1 (witness): the amended theorem applied at a nonempty DataFrame and
the concrete strategy "median". -/
theorem claim_C1_witness :
    pool [HSRecord.mk 0 "a" (-2) []] "median" =
      Except.error (PyError.nameError "ValuerError") :=
  claim_C1_unknown_strategy_raises [HSRecord.mk 0 "a" (-2) []] "median"
    (by decide) (by decide) (by decide)

/-- C2: every call to `get_hidden_states` (and therefore to `encode`) raises
before producing any hidden-state record: the string "cpu" / "gpu" passed as
`get_device`'s `num_gpus` argument reaches `min(num_gpus, device_count)`,
which raises `TypeError`, whatever the encoder's `num_gpus` attribute and
the CUDA device count are. -/
theorem claim_C2_raises_before_any_record (self_num_gpus : Option Int) (cudaCount : Nat)
    (pooling_strategy : String) :
    get_hidden_states self_num_gpus cudaCount =
      Except.error (PyError.typeError "lt not supported between instances of int and str") ∧
    encode self_num_gpus cudaCount pooling_strategy =
      Except.error (PyError.typeError "lt not supported between instances of int and str") := by
  have hghs : get_hidden_states self_num_gpus cudaCount =
      Except.error (PyError.typeError "lt not supported between instances of int and str") := by
    rfl
  refine ⟨hghs, ?_⟩
  unfold encode
  rw [hghs]

/-- C3: with `local_rank` different from -1, `move_model_to_device` raises
`NameError` (the branch assigns to `self.model` although `self` is not
defined in this module-level function) instead of returning a model wrapped
for distributed data-parallel execution. -/
theorem claim_C3_distributed_branch_raises_nameerror (model : PyModel) (device : Device)
    (num_gpus : Option Int) (gpu_ids : Option (List Int)) (cudaCount : Nat)
    (local_rank : Int) (h : local_rank ≠ -1) :
    move_model_to_device model device num_gpus gpu_ids local_rank cudaCount =
      Except.error (PyError.nameError "self") := by
  simp only [move_model_to_device]
  rw [if_pos h]

/-- C3 (witness): the distributed branch evaluated at a concrete model,
CUDA device and rank 0. -/
theorem claim_C3_witness :
    move_model_to_device (PyModel.base 0 ⟨"cpu", none⟩) ⟨"cuda", some 0⟩ none none 0 2 =
      Except.error (PyError.nameError "self") :=
  claim_C3_distributed_branch_raises_nameerror (PyModel.base 0 ⟨"cpu", none⟩)
    ⟨"cuda", some 0⟩ none none 2 0 (by decide)

/-- C4 (counterexample): with a determinable loader length 1, one epoch,
accumulation factor 2 and `max_steps = -1`, the claim predicts the return
value `floor(1 / 2) * 1 = 0`, but `compute_training_steps` raises instead of
returning it. -/
theorem claim_C4_counterexample :
    ¬ (compute_training_steps (some 1) 1 (-1) 2 = Except.ok (Int.fdiv 1 2 * 1)) := by
  decide

/-- C4 (amended): an explicitly positive `max_steps` is returned exactly
regardless of all other arguments, and with `max_steps = -1`, positive
epochs and determinable length `l`, the result is `floor(l / A) * E`
provided that value is positive (otherwise the function raises, see C8). -/
theorem claim_C4_step_count (dataloaderLength : Option Nat)
    (num_epochs max_steps gradient_accumulation_steps : Int) (l : Nat) :
    (0 < max_steps →
      compute_training_steps dataloaderLength num_epochs max_steps
          gradient_accumulation_steps = Except.ok max_steps) ∧
    (0 < num_epochs →
      0 < Int.fdiv (l : Int) gradient_accumulation_steps * num_epochs →
      compute_training_steps (some l) num_epochs (-1) gradient_accumulation_steps =
        Except.ok (Int.fdiv (l : Int) gradient_accumulation_steps * num_epochs)) := by
  constructor
  · intro hM
    simp only [compute_training_steps]
    rw [if_neg (fun hc => (not_le.mpr hM) hc.1)]
    exact if_neg (not_le.mpr hM)
  · intro hE hpos
    have hA : gradient_accumulation_steps ≠ 0 := by
      intro h0
      rw [h0, Int.fdiv_zero, zero_mul] at hpos
      exact lt_irrefl 0 hpos
    simp only [compute_training_steps]
    rw [if_pos ⟨by omega, by omega, hE⟩, if_neg hA]
    exact if_neg (not_le.mpr hpos)

/-- C4 (witness): the amended theorem applied with loader length 4, two
epochs, accumulation factor 2, and override 5. -/
theorem claim_C4_witness :
    compute_training_steps (some 4) 2 5 2 = Except.ok 5 ∧
    compute_training_steps (some 4) 2 (-1) 2 = Except.ok (Int.fdiv (4 : Int) 2 * 2) :=
  ⟨(claim_C4_step_count (some 4) 2 5 2 4).1 (by decide),
   (claim_C4_step_count (some 4) 2 5 2 4).2 (by decide) (by decide)⟩

/-- C5 (counterexample): with a requested accelerator count of 0 (which does
not exceed the available count 0), the effective batch size is
`32 * max 1 0 = 32`, not `32 * 0` as the claim states. -/
theorem claim_C5_counterexample :
    ¬ ((dataloader_from_dataset 10 32 (some 0) false false 0).batch_size = 32 * 0) := by
  decide

/-- C5 (amended): for a requested accelerator count `n` (not exceeding the
available count), the effective batch size is the per-accelerator batch size
times `max 1 n`; with no count requested it is the per-accelerator batch
size times `max 1 available`. -/
theorem claim_C5_effective_batch_size (dsSize : Nat) (batch_size : Int) (n : Int)
    (cudaCount : Nat) (shuffle distributed : Bool) :
    (n ≤ (cudaCount : Int) →
      (dataloader_from_dataset dsSize batch_size (some n) shuffle distributed
          cudaCount).batch_size = batch_size * max 1 n) ∧
    (dataloader_from_dataset dsSize batch_size none shuffle distributed
        cudaCount).batch_size = batch_size * max 1 (cudaCount : Int) := by
  exact ⟨fun _ => rfl, rfl⟩

/-- C5 (witness): the amended theorem applied with batch size 32, two of
four accelerators requested. -/
theorem claim_C5_witness :
    (dataloader_from_dataset 10 32 (some 2) false false 4).batch_size = 32 * max 1 2 ∧
    (dataloader_from_dataset 10 32 none false false 4).batch_size =
      32 * max 1 ((4 : Nat) : Int) :=
  ⟨(claim_C5_effective_batch_size 10 32 2 4 false false).1 (by decide),
   (claim_C5_effective_batch_size 10 32 2 4 false false).2⟩

/-- C7 (counterexample): a model already wrapped in
`DistributedDataParallel`, re-placed on a CUDA device with two available
GPUs, is not unwrapped: the result nests a `DataParallel` wrapper around the
`DistributedDataParallel` wrapper. -/
theorem claim_C7_counterexample :
    move_model_to_device
        (PyModel.distributedDataParallel (PyModel.base 0 ⟨"cpu", none⟩) [0] 0)
        ⟨"cuda", none⟩ none none (-1) 2 =
      Except.ok
        (PyModel.dataParallel
          (PyModel.distributedDataParallel (PyModel.base 0 ⟨"cuda", none⟩) [0] 0)
          [0, 1]) := by
  rfl

/-- C7 (amended): only a `DataParallel` wrapper is removed before
re-wrapping: a `DataParallel`-wrapped model is unwrapped (shown on a
non-CUDA device, where the result is exactly the inner model moved), while a
`DistributedDataParallel`-wrapped model is not unwrapped, and re-placement
on a CUDA device with at least two GPUs nests a fresh `DataParallel` around
it. -/
theorem claim_C7_unwrap_only_dataparallel (inner : PyModel) (device_ids : List Int)
    (output_device : Int) (dev : Device) (num_gpus : Option Int)
    (gpu_ids : Option (List Int)) (cudaCount : Nat) :
    (dev.type ≠ "cuda" →
      move_model_to_device (PyModel.dataParallel inner device_ids) dev num_gpus gpu_ids
          (-1) cudaCount = Except.ok (modelTo inner dev)) ∧
    (2 ≤ cudaCount →
      move_model_to_device
          (PyModel.distributedDataParallel inner device_ids output_device)
          ⟨"cuda", none⟩ none none (-1) cudaCount =
        Except.ok
          (PyModel.dataParallel
            (modelTo (PyModel.distributedDataParallel inner device_ids output_device)
              ⟨"cuda", none⟩)
            (intRange (cudaCount : Int)))) := by
  constructor
  · intro hdev
    simp only [move_model_to_device]
    rw [if_neg (by omega : ¬((-1 : Int) ≠ -1)), if_neg hdev]
  · intro hcc
    have h1 : ¬((cudaCount : Int) < 1) := by omega
    have h2 : 1 < (intRange (cudaCount : Int)).length := by
      unfold intRange
      rw [List.length_map, List.length_range]
      omega
    simp only [move_model_to_device, check_num_gpus]
    simp [h1, h2, modelTo]

/-- C7 (witness): the amended theorem applied with a concrete wrapped model,
a CPU target for the first part and three available GPUs for the second. -/
theorem claim_C7_witness :
    move_model_to_device (PyModel.dataParallel (PyModel.base 1 ⟨"cpu", none⟩) [0, 1])
        ⟨"cpu", none⟩ none none (-1) 3 =
      Except.ok (modelTo (PyModel.base 1 ⟨"cpu", none⟩) ⟨"cpu", none⟩) ∧
    move_model_to_device
        (PyModel.distributedDataParallel (PyModel.base 1 ⟨"cpu", none⟩) [0] 0)
        ⟨"cuda", none⟩ none none (-1) 3 =
      Except.ok
        (PyModel.dataParallel
          (modelTo (PyModel.distributedDataParallel (PyModel.base 1 ⟨"cpu", none⟩) [0] 0)
            ⟨"cuda", none⟩)
          (intRange ((3 : Nat) : Int))) :=
  ⟨(claim_C7_unwrap_only_dataparallel (PyModel.base 1 ⟨"cpu", none⟩) [0, 1] 0
      ⟨"cpu", none⟩ none none 3).1 (by decide),
   (claim_C7_unwrap_only_dataparallel (PyModel.base 1 ⟨"cpu", none⟩) [0] 0
      ⟨"cpu", none⟩ none none 3).2 (by decide)⟩

/-- C8: `compute_training_steps` raises whenever the loader length is
undeterminable and the override is not positive, and whenever the override
is not positive and the computed step count `floor(l / A) * E` is not
positive (including a division-by-zero error when `A = 0`). -/
theorem claim_C8_raises_on_undeterminable (dataloaderLength : Option Nat)
    (num_epochs max_steps gradient_accumulation_steps : Int) (l : Nat) :
    (dataloaderLength = none → max_steps ≤ 0 →
      ∃ e, compute_training_steps dataloaderLength num_epochs max_steps
        gradient_accumulation_steps = Except.error e) ∧
    (max_steps ≤ 0 →
      Int.fdiv (l : Int) gradient_accumulation_steps * num_epochs ≤ 0 →
      ∃ e, compute_training_steps (some l) num_epochs max_steps
        gradient_accumulation_steps = Except.error e) := by
  constructor
  · intro hnone hM
    subst hnone
    refine ⟨PyError.exception "Max steps cannot be determined.", ?_⟩
    simp only [compute_training_steps]
    rw [if_neg (fun hc => hc.2.1 rfl)]
    exact if_pos hM
  · intro hM hres
    by_cases hE : 0 < num_epochs
    · by_cases hA : gradient_accumulation_steps = 0
      · refine ⟨PyError.zeroDivisionError "integer division or modulo by zero", ?_⟩
        simp only [compute_training_steps]
        rw [if_pos ⟨hM, by omega, hE⟩, if_pos hA]
      · refine ⟨PyError.exception "Max steps cannot be determined.", ?_⟩
        simp only [compute_training_steps]
        rw [if_pos ⟨hM, by omega, hE⟩, if_neg hA]
        exact if_pos hres
    · refine ⟨PyError.exception "Max steps cannot be determined.", ?_⟩
      simp only [compute_training_steps]
      rw [if_neg (fun hc => hE hc.2.2)]
      exact if_pos hM

/-- C8 (witness): the theorem applied with an undeterminable length, and
with length 1 under accumulation factor 2 (computed step count 0). -/
theorem claim_C8_witness :
    (∃ e, compute_training_steps none 1 (-1) 1 = Except.error e) ∧
    (∃ e, compute_training_steps (some 1) 1 (-1) 2 = Except.error e) :=
  ⟨(claim_C8_raises_on_undeterminable none 1 (-1) 1 1).1 rfl (by decide),
   (claim_C8_raises_on_undeterminable (some 1) 1 (-1) 2 1).2 (by decide) (by decide)⟩

/-- C9 (counterexample): with an explicitly requested accelerator count of 0
but a CPU target device, `move_model_to_device` does not fail: the
`num_gpus < 1` guard sits inside the `device.type == "cuda"` branch, so the
model is simply returned. -/
theorem claim_C9_counterexample :
    move_model_to_device (PyModel.base 0 ⟨"cpu", none⟩) ⟨"cpu", none⟩ (some 0) none (-1) 0 =
      Except.ok (PyModel.base 0 ⟨"cpu", none⟩) := by
  rfl

/-- C9 (amended): with an explicitly requested accelerator count below 1,
`move_model_to_device` fails with `ValueError` when (and only in the branch
where) the target device is a CUDA device; on other devices the count is
ignored. -/
theorem claim_C9_cuda_low_count_fails (model : PyModel) (index : Option Int) (n : Int)
    (gpu_ids : Option (List Int)) (cudaCount : Nat) (h : n < 1) :
    move_model_to_device model ⟨"cuda", index⟩ (some n) gpu_ids (-1) cudaCount =
      Except.error (PyError.valueError "num_gpus must be at least 1 or None") := by
  simp only [move_model_to_device, check_num_gpus]
  simp [h]

/-- C9 (witness): the amended theorem applied at a concrete model with
requested count 0 on a CUDA device. -/
theorem claim_C9_witness :
    move_model_to_device (PyModel.base 0 ⟨"cpu", none⟩) ⟨"cuda", some 0⟩ (some 0) none
        (-1) 4 =
      Except.error (PyError.valueError "num_gpus must be at least 1 or None") :=
  claim_C9_cuda_low_count_fails (PyModel.base 0 ⟨"cpu", none⟩) (some 0) 0 none 4
    (by decide)

/-- C10: in non-distributed mode (`local_rank = -1`) with zero CUDA devices
available, `get_device` returns the CPU device whatever integer accelerator
count is requested (including none). -/
theorem claim_C10_zero_accelerators_cpu (requested : Option Int) :
    ∃ n, get_device (requested.map PyVal.pyInt) (-1) 0 =
      Except.ok (⟨"cpu", none⟩, n) := by
  cases requested with
  | none => exact ⟨0, rfl⟩
  | some m =>
      refine ⟨min m 0, ?_⟩
      simp [Option.map, get_device, pymin]

/-!
Claim C6: grouping and per-group behaviour of `pool`.

Helper notions: `vget v i` reads entry `i` of a row vector (0 outside the
vector); the lemmas below characterise the folds used by the pooling
reductions pointwise.
-/

/-- Entry `i` of a row vector, with default 0. -/
def vget (v : List ℚ) (i : Nat) : ℚ := v.getD i 0

theorem vget_zipWith {f : ℚ → ℚ → ℚ} (a : List ℚ) :
    ∀ (b : List ℚ) (i : Nat), i < a.length → i < b.length →
      vget (List.zipWith f a b) i = f (vget a i) (vget b i) := by
  induction a with
  | nil => intro b i ha _; simp at ha
  | cons x xs ih =>
      intro b i ha hb
      cases b with
      | nil => simp at hb
      | cons y ys =>
          cases i with
          | zero => rfl
          | succ j =>
              show vget (List.zipWith f xs ys) j = f (vget xs j) (vget ys j)
              exact ih ys j (by simp at ha; omega) (by simp at hb; omega)

theorem vget_map (g : ℚ → ℚ) (u : List ℚ) :
    ∀ (i : Nat), i < u.length → vget (u.map g) i = g (vget u i) := by
  induction u with
  | nil => intro i hi; simp at hi
  | cons x xs ih =>
      intro i hi
      cases i with
      | zero => rfl
      | succ j => exact ih j (by simp at hi; omega)

theorem list_eq_of_vget (a : List ℚ) :
    ∀ (b : List ℚ), a.length = b.length →
      (∀ i, i < a.length → vget a i = vget b i) → a = b := by
  induction a with
  | nil =>
      intro b hlen _
      cases b with
      | nil => rfl
      | cons y ys => simp at hlen
  | cons x xs ih =>
      intro b hlen h
      cases b with
      | nil => simp at hlen
      | cons y ys =>
          have hx : x = y := h 0 (by simp)
          have hxs : xs = ys :=
            ih ys (by simp at hlen; exact hlen) (fun i hi => h (i + 1) (by simp; omega))
          rw [hx, hxs]

theorem foldl_vecAdd_length (rest : List (List ℚ)) :
    ∀ (acc : List ℚ), acc.length = 768 → (∀ v ∈ rest, v.length = 768) →
      (rest.foldl vecAdd acc).length = 768 := by
  induction rest with
  | nil => intro acc hacc _; exact hacc
  | cons w t ih =>
      intro acc hacc h
      simp only [List.foldl_cons]
      exact ih (vecAdd acc w)
        (by simp [vecAdd, List.length_zipWith, hacc, h w (by simp)])
        (fun v hv => h v (by simp [hv]))

theorem foldl_vecMax_length (rest : List (List ℚ)) :
    ∀ (acc : List ℚ), acc.length = 768 → (∀ v ∈ rest, v.length = 768) →
      (rest.foldl vecMax acc).length = 768 := by
  induction rest with
  | nil => intro acc hacc _; exact hacc
  | cons w t ih =>
      intro acc hacc h
      simp only [List.foldl_cons]
      exact ih (vecMax acc w)
        (by simp [vecMax, List.length_zipWith, hacc, h w (by simp)])
        (fun v hv => h v (by simp [hv]))

theorem foldl_vecAdd_vget (rest : List (List ℚ)) :
    ∀ (acc : List ℚ) (i : Nat), acc.length = 768 → (∀ v ∈ rest, v.length = 768) →
      i < 768 →
      vget (rest.foldl vecAdd acc) i = vget acc i + (rest.map (fun v => vget v i)).sum := by
  induction rest with
  | nil => intro acc i _ _ _; simp
  | cons w t ih =>
      intro acc i hacc h hi
      simp only [List.foldl_cons, List.map_cons, List.sum_cons]
      rw [ih (vecAdd acc w) i
        (by simp [vecAdd, List.length_zipWith, hacc, h w (by simp)])
        (fun v hv => h v (by simp [hv])) hi]
      have hw : vget (vecAdd acc w) i = vget acc i + vget w i := by
        simp only [vecAdd]
        exact vget_zipWith acc w i (by omega) (by have := h w (by simp); omega)
      rw [hw]
      ring

theorem foldl_vecMax_vget (rest : List (List ℚ)) :
    ∀ (acc : List ℚ) (i : Nat), acc.length = 768 → (∀ v ∈ rest, v.length = 768) →
      i < 768 →
      vget (rest.foldl vecMax acc) i =
        (rest.map (fun v => vget v i)).foldl max (vget acc i) := by
  induction rest with
  | nil => intro acc i _ _ _; simp
  | cons w t ih =>
      intro acc i hacc h hi
      simp only [List.foldl_cons, List.map_cons]
      rw [ih (vecMax acc w) i
        (by simp [vecMax, List.length_zipWith, hacc, h w (by simp)])
        (fun v hv => h v (by simp [hv])) hi]
      have hw : vget (vecMax acc w) i = max (vget acc i) (vget w i) := by
        simp only [vecMax]
        exact vget_zipWith acc w i (by omega) (by have := h w (by simp); omega)
      rw [hw]

theorem foldl_max_prop (l : List ℚ) :
    ∀ (c : ℚ),
      (c ≤ l.foldl max c ∧ ∀ x ∈ l, x ≤ l.foldl max c) ∧
      (l.foldl max c = c ∨ l.foldl max c ∈ l) := by
  induction l with
  | nil => intro c; exact ⟨⟨le_refl c, by simp⟩, Or.inl rfl⟩
  | cons x t ih =>
      intro c
      obtain ⟨⟨hc, hub⟩, hmem⟩ := ih (max c x)
      simp only [List.foldl_cons]
      refine ⟨⟨le_trans (le_max_left c x) hc, ?_⟩, ?_⟩
      · intro y hy
        rcases List.mem_cons.1 hy with rfl | hy'
        · exact le_trans (le_max_right c y) hc
        · exact hub y hy'
      · rcases hmem with heq | hmem'
        · rcases max_choice c x with h1 | h1
          · exact Or.inl (by rw [heq, h1])
          · exact Or.inr (by rw [heq, h1]; exact List.mem_cons_self x t)
        · exact Or.inr (List.mem_cons_of_mem x hmem')

theorem stack_values_ok (vs : List (List ℚ)) (h : ∀ v ∈ vs, v.length = 768) :
    stack_values vs = .ok vs := by
  induction vs with
  | nil => rfl
  | cons v t ih =>
      have hv : np_reshape_768 v = .ok v := by
        unfold np_reshape_768
        rw [if_pos (h v (by simp))]
      have ht : mapExcept np_reshape_768 t = .ok t := ih (fun w hw => h w (by simp [hw]))
      show mapExcept np_reshape_768 (v :: t) = .ok (v :: t)
      simp only [mapExcept]
      rw [hv, ht]

theorem stack_values_error (vs : List (List ℚ)) (h : ∃ v ∈ vs, v.length ≠ 768) :
    stack_values vs = .error (.valueError "cannot reshape array into shape 768") := by
  induction vs with
  | nil => simp at h
  | cons v t ih =>
      by_cases hv : v.length = 768
      · obtain ⟨w, hw, hne⟩ := h
        have hwt : w ∈ t := by
          rcases List.mem_cons.1 hw with rfl | h'
          · exact absurd hv hne
          · exact h'
        have ht : mapExcept np_reshape_768 t =
            .error (.valueError "cannot reshape array into shape 768") := ih ⟨w, hwt, hne⟩
        show mapExcept np_reshape_768 (v :: t) = _
        simp only [mapExcept]
        rw [show np_reshape_768 v = .ok v from by unfold np_reshape_768; rw [if_pos hv], ht]
      · show mapExcept np_reshape_768 (v :: t) = _
        simp only [mapExcept]
        rw [show np_reshape_768 v =
            Except.error (PyError.valueError "cannot reshape array into shape 768") from by
          unfold np_reshape_768; rw [if_neg hv]]

theorem mean_pool_char (v : List ℚ) (rest : List (List ℚ))
    (h : ∀ w ∈ v :: rest, w.length = 768) :
    ∃ out, mean_pool (v :: rest) = Except.ok out ∧ out.length = 768 ∧
      ∀ i, i < 768 →
        vget out i = ((v :: rest).map (fun w => vget w i)).sum / ((v :: rest).length : ℚ) := by
  have hv : v.length = 768 := h v (by simp)
  have ht : ∀ w ∈ rest, w.length = 768 := fun w hw => h w (by simp [hw])
  have hfold : (rest.foldl vecAdd v).length = 768 := foldl_vecAdd_length rest v hv ht
  refine ⟨(rest.foldl vecAdd v).map (fun x => x / (((v :: rest).length : Nat) : ℚ)),
    ?_, ?_, ?_⟩
  · unfold mean_pool
    rw [stack_values_ok _ h]
  · rw [List.length_map]
    exact hfold
  · intro i hi
    rw [vget_map _ _ i (by omega)]
    rw [foldl_vecAdd_vget rest v i hv ht hi]
    simp

theorem max_pool_char (v : List ℚ) (rest : List (List ℚ))
    (h : ∀ w ∈ v :: rest, w.length = 768) :
    ∃ out, max_pool (v :: rest) = Except.ok out ∧ out.length = 768 ∧
      ∀ i, i < 768 →
        (∀ w ∈ v :: rest, vget w i ≤ vget out i) ∧
        (∃ w ∈ v :: rest, vget out i = vget w i) := by
  have hv : v.length = 768 := h v (by simp)
  have ht : ∀ w ∈ rest, w.length = 768 := fun w hw => h w (by simp [hw])
  refine ⟨rest.foldl vecMax v, ?_, foldl_vecMax_length rest v hv ht, ?_⟩
  · unfold max_pool
    rw [stack_values_ok _ h]
  · intro i hi
    have hrw : vget (rest.foldl vecMax v) i =
        (rest.map (fun w => vget w i)).foldl max (vget v i) :=
      foldl_vecMax_vget rest v i hv ht hi
    obtain ⟨⟨hc, hub⟩, hmem⟩ := foldl_max_prop (rest.map (fun w => vget w i)) (vget v i)
    constructor
    · intro w hw
      rcases List.mem_cons.1 hw with rfl | hw'
      · rw [hrw]; exact hc
      · rw [hrw]; exact hub _ (List.mem_map_of_mem _ hw')
    · rcases hmem with heq | hmem'
      · exact ⟨v, by simp, by rw [hrw, heq]⟩
      · obtain ⟨w, hw, hwv⟩ := List.mem_map.1 hmem'
        exact ⟨w, by simp [hw], by rw [hrw, ← hwv]⟩

theorem cls_pool_first (v : List ℚ) (rest : List (List ℚ))
    (h : ∀ w ∈ v :: rest, w.length = 768) :
    cls_pool (v :: rest) = Except.ok v := by
  unfold cls_pool
  rw [stack_values_ok _ h]

theorem mean_pool_perm (vs vs' : List (List ℚ)) (hp : List.Perm vs vs') :
    mean_pool vs = mean_pool vs' := by
  by_cases hall : ∀ w ∈ vs, w.length = 768
  · have hall' : ∀ w ∈ vs', w.length = 768 := fun w hw => hall w (hp.mem_iff.2 hw)
    cases vs with
    | nil =>
        cases vs' with
        | nil => rfl
        | cons v' rest' => have := hp.length_eq; simp at this
    | cons v rest =>
        cases vs' with
        | nil => have := hp.length_eq; simp at this
        | cons v' rest' =>
            obtain ⟨out, hout, hlen, hchar⟩ := mean_pool_char v rest hall
            obtain ⟨out', hout', hlen', hchar'⟩ := mean_pool_char v' rest' hall'
            rw [hout, hout']
            have : out = out' := by
              apply list_eq_of_vget _ _ (by rw [hlen, hlen'])
              intro i hi
              rw [hlen] at hi
              rw [hchar i hi, hchar' i hi]
              rw [(hp.map (fun w => vget w i)).sum_eq, hp.length_eq]
            rw [this]
  · have hex : ∃ w ∈ vs, w.length ≠ 768 := by push_neg at hall; exact hall
    have hex' : ∃ w ∈ vs', w.length ≠ 768 := by
      obtain ⟨w, hw, hne⟩ := hex
      exact ⟨w, hp.mem_iff.1 hw, hne⟩
    unfold mean_pool
    rw [stack_values_error _ hex, stack_values_error _ hex']

theorem max_pool_perm (vs vs' : List (List ℚ)) (hp : List.Perm vs vs') :
    max_pool vs = max_pool vs' := by
  by_cases hall : ∀ w ∈ vs, w.length = 768
  · have hall' : ∀ w ∈ vs', w.length = 768 := fun w hw => hall w (hp.mem_iff.2 hw)
    cases vs with
    | nil =>
        cases vs' with
        | nil => rfl
        | cons v' rest' => have := hp.length_eq; simp at this
    | cons v rest =>
        cases vs' with
        | nil => have := hp.length_eq; simp at this
        | cons v' rest' =>
            obtain ⟨out, hout, hlen, hchar⟩ := max_pool_char v rest hall
            obtain ⟨out', hout', hlen', hchar'⟩ := max_pool_char v' rest' hall'
            rw [hout, hout']
            have : out = out' := by
              apply list_eq_of_vget _ _ (by rw [hlen, hlen'])
              intro i hi
              rw [hlen] at hi
              obtain ⟨hub, w, hw, hwv⟩ := hchar i hi
              obtain ⟨hub', w', hw', hwv'⟩ := hchar' i hi
              apply le_antisymm
              · rw [hwv]
                exact hub' w (hp.mem_iff.1 hw)
              · rw [hwv']
                exact hub w' (hp.mem_iff.2 hw')
            rw [this]
  · have hex : ∃ w ∈ vs, w.length ≠ 768 := by push_neg at hall; exact hall
    have hex' : ∃ w ∈ vs', w.length ≠ 768 := by
      obtain ⟨w, hw, hne⟩ := hex
      exact ⟨w, hp.mem_iff.1 hw, hne⟩
    unfold max_pool
    rw [stack_values_error _ hex, stack_values_error _ hex']

theorem groupKeys_perm (df df' : List HSRecord) (hp : List.Perm df df') :
    groupKeys df = groupKeys df' := by
  unfold groupKeys
  apply List.eq_of_perm_of_sorted (r := keyLE)
  · exact (List.perm_insertionSort keyLE _).trans
      (((hp.map keyOf).dedup).trans (List.perm_insertionSort keyLE _).symm)
  · exact List.sorted_insertionSort keyLE _
  · exact List.sorted_insertionSort keyLE _

theorem groupRows_perm (df df' : List HSRecord) (k : Int × Int)
    (hp : List.Perm df df') : List.Perm (groupRows df k) (groupRows df' k) := by
  unfold groupRows
  exact List.Perm.map (fun r => r.values) (hp.filter (fun r => decide (keyOf r = k)))

theorem mapExcept_congr (l : List α) (f g : α → Except PyError β)
    (h : ∀ x ∈ l, f x = g x) : mapExcept f l = mapExcept g l := by
  induction l with
  | nil => rfl
  | cons x t ih =>
      simp only [mapExcept]
      rw [h x (by simp), ih (fun y hy => h y (by simp [hy]))]

theorem pool_strategy_perm (df df' : List HSRecord) (hp : List.Perm df df')
    (f : PoolFunc) (s : String) (hs : choose_pool_func s = .ok f)
    (hinv : ∀ vs vs' : List (List ℚ), List.Perm vs vs' →
      applyPoolFunc f vs = applyPoolFunc f vs') :
    pool df s = pool df' s := by
  unfold pool
  rw [hs, groupKeys_perm df df' hp]
  apply mapExcept_congr
  intro k _
  rw [hinv _ _ (groupRows_perm df df' k hp)]

theorem groupRows_mem (df : List HSRecord) (k : Int × Int) (v : List ℚ) :
    v ∈ groupRows df k ↔ ∃ r, r ∈ df ∧ keyOf r = k ∧ r.values = v := by
  unfold groupRows
  rw [List.mem_map]
  constructor
  · rintro ⟨r, hr, rfl⟩
    obtain ⟨hrdf, hdec⟩ := List.mem_filter.1 hr
    exact ⟨r, hrdf, of_decide_eq_true hdec, rfl⟩
  · rintro ⟨r, hrdf, hkey, rfl⟩
    exact ⟨r, List.mem_filter.2 ⟨hrdf, decide_eq_true hkey⟩, rfl⟩

theorem groupKeys_mem (df : List HSRecord) (k : Int × Int) :
    k ∈ groupKeys df ↔ ∃ r, r ∈ df ∧ keyOf r = k := by
  unfold groupKeys
  rw [List.mem_insertionSort, List.mem_dedup, List.mem_map]

set_option maxRecDepth 8000 in
/-- C6 (counterexample): two DataFrames that differ only in the order of the
two rows of their single group (document 0, layer -2) yield different `cls`
pooling results, so `cls` pooling is not independent of the input row order
within a group: it returns the vector of whichever row comes first. -/
theorem claim_C6_counterexample :
    pool [HSRecord.mk 0 "a" (-2) (List.replicate 768 0),
          HSRecord.mk 0 "b" (-2) (List.replicate 768 1)] "cls" ≠
      pool [HSRecord.mk 0 "b" (-2) (List.replicate 768 1),
            HSRecord.mk 0 "a" (-2) (List.replicate 768 0)] "cls" := by
  decide

/-- C6 (amended): `pool` groups strictly by (document index, layer index) —
a vector enters the group of key `k` exactly when some row of the DataFrame
carries key `k` and that vector, and a key is pooled exactly when some row
carries it — and per group (of 768-wide vectors): `mean` yields the
element-wise average of exactly that group's token vectors and `max` their
element-wise maximum, both independent of input row order within the group
(any reordering of the DataFrame rows leaves the mean / max pooling output
unchanged), while `cls` yields the vector of the group's FIRST ROW IN INPUT
ORDER (and is therefore order-dependent, see the counterexample). -/
theorem claim_C6_pooling (df df' : List HSRecord) (hp : List.Perm df df')
    (k : Int × Int) (u : List ℚ) (v : List ℚ) (rest : List (List ℚ))
    (h768 : ∀ w ∈ v :: rest, w.length = 768) :
    (pool df "mean" = pool df' "mean" ∧ pool df "max" = pool df' "max") ∧
    ((u ∈ groupRows df k ↔ ∃ r, r ∈ df ∧ keyOf r = k ∧ r.values = u) ∧
      (k ∈ groupKeys df ↔ ∃ r, r ∈ df ∧ keyOf r = k)) ∧
    (∃ out, mean_pool (v :: rest) = Except.ok out ∧ out.length = 768 ∧
      ∀ i, i < 768 →
        vget out i = ((v :: rest).map (fun w => vget w i)).sum / ((v :: rest).length : ℚ)) ∧
    (∃ out, max_pool (v :: rest) = Except.ok out ∧ out.length = 768 ∧
      ∀ i, i < 768 →
        (∀ w ∈ v :: rest, vget w i ≤ vget out i) ∧
        (∃ w ∈ v :: rest, vget out i = vget w i)) ∧
    cls_pool (v :: rest) = Except.ok v := by
  refine ⟨⟨?_, ?_⟩, ⟨groupRows_mem df k u, groupKeys_mem df k⟩,
    mean_pool_char v rest h768, max_pool_char v rest h768, cls_pool_first v rest h768⟩
  · exact pool_strategy_perm df df' hp PoolFunc.meanF "mean" rfl
      (fun vs vs' hvs => mean_pool_perm vs vs' hvs)
  · exact pool_strategy_perm df df' hp PoolFunc.maxF "max" rfl
      (fun vs vs' hvs => max_pool_perm vs vs' hvs)

set_option maxRecDepth 8000 in
/-- C6 (witness): the amended theorem applied to a concrete two-row
DataFrame (one group), its row-swapped permutation, and a concrete
one-vector group. -/
theorem claim_C6_witness :
    (pool [HSRecord.mk 0 "a" (-2) (List.replicate 768 0),
           HSRecord.mk 0 "b" (-2) (List.replicate 768 1)] "mean" =
       pool [HSRecord.mk 0 "b" (-2) (List.replicate 768 1),
             HSRecord.mk 0 "a" (-2) (List.replicate 768 0)] "mean" ∧
     pool [HSRecord.mk 0 "a" (-2) (List.replicate 768 0),
           HSRecord.mk 0 "b" (-2) (List.replicate 768 1)] "max" =
       pool [HSRecord.mk 0 "b" (-2) (List.replicate 768 1),
             HSRecord.mk 0 "a" (-2) (List.replicate 768 0)] "max") ∧
    ((List.replicate 768 (0 : ℚ) ∈
        groupRows [HSRecord.mk 0 "a" (-2) (List.replicate 768 0),
                   HSRecord.mk 0 "b" (-2) (List.replicate 768 1)] (0, -2) ↔
      ∃ r, r ∈ [HSRecord.mk 0 "a" (-2) (List.replicate 768 0),
                HSRecord.mk 0 "b" (-2) (List.replicate 768 1)] ∧
        keyOf r = (0, -2) ∧ r.values = List.replicate 768 (0 : ℚ)) ∧
     ((0, -2) ∈ groupKeys [HSRecord.mk 0 "a" (-2) (List.replicate 768 0),
                           HSRecord.mk 0 "b" (-2) (List.replicate 768 1)] ↔
      ∃ r, r ∈ [HSRecord.mk 0 "a" (-2) (List.replicate 768 0),
                HSRecord.mk 0 "b" (-2) (List.replicate 768 1)] ∧
        keyOf r = (0, -2))) ∧
    (∃ out, mean_pool [List.replicate 768 (3 : ℚ)] = Except.ok out ∧
      out.length = 768 ∧
      ∀ i, i < 768 →
        vget out i =
          ([List.replicate 768 (3 : ℚ)].map (fun w => vget w i)).sum /
            (([List.replicate 768 (3 : ℚ)].length : Nat) : ℚ)) ∧
    (∃ out, max_pool [List.replicate 768 (3 : ℚ)] = Except.ok out ∧
      out.length = 768 ∧
      ∀ i, i < 768 →
        (∀ w ∈ [List.replicate 768 (3 : ℚ)], vget w i ≤ vget out i) ∧
        (∃ w ∈ [List.replicate 768 (3 : ℚ)], vget out i = vget w i)) ∧
    cls_pool [List.replicate 768 (3 : ℚ)] = Except.ok (List.replicate 768 (3 : ℚ)) :=
  claim_C6_pooling
    [HSRecord.mk 0 "a" (-2) (List.replicate 768 0),
     HSRecord.mk 0 "b" (-2) (List.replicate 768 1)]
    [HSRecord.mk 0 "b" (-2) (List.replicate 768 1),
     HSRecord.mk 0 "a" (-2) (List.replicate 768 0)]
    (List.Perm.swap _ _ _) (0, -2) (List.replicate 768 (0 : ℚ))
    (List.replicate 768 (3 : ℚ)) [] (by decide)
